import Mathlib

/-!
Verification development for the MJPEG IP camera server (`IPcam.py`).

The embedding covers:
* `StreamingOutput` (the frame slot plus condition variable) and its
  `write` method, which publishes a chunk exactly when it starts with
  the JPEG start-of-image marker `0xFF 0xD8` (lines 33-49);
* the `do_GET` handler: path dispatch, response status and headers
  (lines 75-93, 108-110), and the per-frame multipart emission of the
  streaming loop (lines 102-107);
* an interleaving small-step semantics of one writer (the encoder
  callback) and any number of reader sessions (the streaming loop,
  lines 95-107), with the condition-variable wait/notify modelled as:
  a reader in the wait can change phase only when a publish occurs,
  and a publish atomically wakes every waiting reader (the lock-held
  region of `write` is the slot assignment plus `notify_all`).

Bytes are modelled as `Nat`, byte strings as `List Nat`.
-/

set_option autoImplicit false

namespace IPcam

/-- A complete encoded frame: an opaque byte sequence. -/
abbrev Frame := List Nat

/-- `buf.startswith(b"\xff\xd8")` from line 45: true iff the chunk's
first two bytes are `0xFF 0xD8` (255, 216). -/
def startsWithJpegSOI (buf : List Nat) : Bool :=
  match buf with
  | a :: b :: _ => a == 255 && b == 216
  | _ => false

/-- The state of `StreamingOutput`: the single frame slot, initially
`None` (line 34). The `Condition` object carries no data; waiting is
modelled in the session semantics below. -/
structure StreamingOutput where
  frame : Option Frame
deriving DecidableEq, Repr

/-- `StreamingOutput.__init__` (lines 33-35): the slot starts empty. -/
def StreamingOutput.mkInit : StreamingOutput := { frame := none }

/-- The observable outcome of one `StreamingOutput.write` call
(lines 37-49): the updated slot state, the returned value
(`len(buf)`, line 49), and the list of publishes performed during the
call (each publish is a slot assignment plus a `notify_all`). -/
structure WriteResult where
  state : StreamingOutput
  returned : Nat
  pubsMade : List Frame
deriving DecidableEq, Repr

/-- `StreamingOutput.write` (lines 37-49): if the chunk starts with the
JPEG SOI marker, store it in the slot and notify all waiters (one
publish); otherwise do nothing. Always return `len(buf)`. -/
def StreamingOutput.write (s : StreamingOutput) (buf : List Nat) : WriteResult :=
  if startsWithJpegSOI buf then
    { state := { frame := some buf }, returned := buf.length, pubsMade := [buf] }
  else
    { state := s, returned := buf.length, pubsMade := [] }

/-- The spec's wording of the publish condition: the chunk begins with
the two bytes `0xFF 0xD8`. Used to check `startsWithJpegSOI` against
the spec, not taken from the source. -/
def specBeginsWithSOI (buf : List Nat) : Prop :=
  ∃ rest, buf = 255 :: 216 :: rest

/-! ### HTTP layer: headers and multipart framing -/

/-- ASCII bytes of a header/boundary string. -/
def asciiBytes (s : String) : List Nat :=
  s.data.map (fun c => c.toNat)

/-- `BaseHTTPRequestHandler.send_header(k, v)`: buffers the bytes of
`k: v\r\n`. -/
def sendHeaderBytes (k v : String) : List Nat :=
  asciiBytes (k ++ ": " ++ v ++ "\r\n")

/-- `BaseHTTPRequestHandler.end_headers()`: emits the terminating blank
line `\r\n` and flushes the buffered header bytes. -/
def endHeadersBytes : List Nat :=
  asciiBytes "\r\n"

/-- The bytes one iteration of the streaming loop writes to the client
for a frame (lines 102-107): the `--FRAME\r\n` boundary, the two part
headers via `send_header`, the blank line via `end_headers`, the frame
payload, and a trailing `\r\n`. -/
def multipartPartBytes (frame : Frame) : List Nat :=
  asciiBytes "--FRAME\r\n"
    ++ sendHeaderBytes "Content-Type" "image/jpeg"
    ++ sendHeaderBytes "Content-Length" (toString frame.length)
    ++ endHeadersBytes
    ++ frame
    ++ asciiBytes "\r\n"

/-- The spec's wording of the per-part byte stream: exactly
`--FRAME\r\nContent-Type: image/jpeg\r\nContent-Length: L\r\n\r\n`
followed by the L payload bytes and `\r\n`. Written from the spec, to
be compared with `multipartPartBytes`. -/
def specPartBytes (frame : Frame) : List Nat :=
  asciiBytes ("--FRAME\r\nContent-Type: image/jpeg\r\nContent-Length: "
      ++ toString frame.length ++ "\r\n\r\n")
    ++ frame ++ asciiBytes "\r\n"

/-- An HTTP response as far as the handler determines it before any
streaming body: status code and the headers set via `send_header`. -/
structure HttpResponse where
  status : Nat
  headers : List (String × String)
deriving DecidableEq, Repr

/-- The static landing page `StreamingHandler.PAGE` (lines 63-73). -/
def PAGE : String :=
  "<html>\n<head>\n<title>Raspberry Pi Camera</title>\n</head>\n<body>\n<h1>Raspberry Pi Camera Stream</h1>\n<img src=\"/stream.mjpg\" width=\"640\" height=\"480\" />\n</body>\n</html>\n"

/-- `len(self.PAGE)` as used on line 79. -/
def pageLength : Nat := (asciiBytes PAGE).length

/-- The path dispatch of `StreamingHandler.do_GET` (lines 75-93 and
108-110), as a function of the request path and the global `output`
(which the handler never assigns: it is returned unchanged). For
`/stream.mjpg` with `output` present this models the response line and
headers sent before the streaming loop begins. -/
def doGET (path : String) (out : Option StreamingOutput) :
    HttpResponse × Option StreamingOutput :=
  if path = "/" then
    ({ status := 200,
       headers := [("Content-Type", "text/html"),
                   ("Content-Length", toString pageLength)] }, out)
  else if path = "/stream.mjpg" then
    match out with
    | none => ({ status := 503, headers := [] }, out)
    | some _ =>
      ({ status := 200,
         headers := [("Age", "0"),
                     ("Cache-Control", "no-cache, private"),
                     ("Pragma", "no-cache"),
                     ("Content-Type", "multipart/x-mixed-replace; boundary=FRAME")] },
       out)
  else
    ({ status := 404, headers := [] }, out)

/-! ### Interleaving semantics of the writer and the stream sessions

One writer (the encoder delivery thread calling `StreamingOutput.write`)
and any number of reader sessions, each executing the loop of lines
95-107.  The condition variable is modelled faithfully to CPython's
`Condition`: a thread inside `condition.wait()` changes state only when
`notify_all` is called (no spurious wakeups, line 48 is the only
notifier), and `write`'s lock-held region (slot assignment plus
`notify_all`, lines 46-48) is one atomic step.  A woken reader must
re-acquire the lock before reading the slot (line 98), so reading is a
separate atomic step that fetches whatever the slot holds then. -/

/-- The control location of one stream session within the loop of lines
95-107.  The `Nat` arguments are ghost publish counts: `waiting k`
records how many publishes existed when the wait began; `woken k`
records the index of the publish whose `notify_all` woke this reader;
`gotFrame k f` and `emitting k f` carry that index alongside the slot
value read on line 98. -/
inductive RPhase where
  | idle : RPhase
  | waiting : Nat → RPhase
  | woken : Nat → RPhase
  | gotFrame : Nat → Option Frame → RPhase
  | emitting : Nat → Frame → RPhase
  | terminated : RPhase
deriving DecidableEq, Repr

/-- One stream session: its control location and the frames already
written to its client (newest first). -/
structure Reader where
  phase : RPhase
  delivered : List Frame
deriving DecidableEq, Repr

/-- Global state: the `StreamingOutput` slot, the ghost history of
published frames (newest first), and the sessions. -/
structure Sys where
  frame : Option Frame
  pubs : List Frame
  readers : List Reader
deriving DecidableEq, Repr

/-- Initial state: empty slot (line 34), no publishes, `n` idle
sessions. -/
def initSys (n : Nat) : Sys :=
  { frame := none, pubs := [], readers := List.replicate n { phase := RPhase.idle, delivered := [] } }

/-- Effect of `notify_all` (line 48) on one session: a session inside
`condition.wait()` becomes runnable, tagged with the index `m` of the
publish that woke it; any other session is untouched. -/
def wakeReader (m : Nat) (r : Reader) : Reader :=
  match r.phase with
  | RPhase.waiting _ => { r with phase := RPhase.woken m }
  | _ => r

/-- The writer's atomic step: one `StreamingOutput.write(buf)` call
(lines 45-49).  On a chunk with the JPEG SOI marker it assigns the slot
and wakes every waiting session (the lock-held region); otherwise it
does nothing to shared state. -/
def ingestStep (s : Sys) (buf : List Nat) : Sys :=
  if startsWithJpegSOI buf then
    { frame := some buf, pubs := buf :: s.pubs,
      readers := s.readers.map (wakeReader (s.pubs.length + 1)) }
  else s

/-- Replace session `i`. -/
def setReader (s : Sys) (i : Nat) (r : Reader) : Sys :=
  { s with readers := s.readers.set i r }

/-- Publish number `m` (1-based: publish 1 is the oldest). -/
def pubAt (s : Sys) (m : Nat) : Option Frame :=
  s.pubs[s.pubs.length - m]?

/-- Small-step interleaving relation. Reader steps follow the loop of
lines 95-107: enter the wait (lines 96-97); after being notified,
re-acquire the lock and read the slot (line 98); on a `None` slot,
`continue` (lines 99-100); otherwise write the multipart part (lines
102-107), which either completes or hits a client disconnect that
terminates the session. A session inside the wait has no step of its
own: only the writer's `notify_all` moves it. -/
inductive Step : Sys → Sys → Prop where
  | ingest (s : Sys) (buf : List Nat) :
      Step s (ingestStep s buf)
  | beginWait (s : Sys) (i : Nat) (r : Reader)
      (hr : s.readers[i]? = some r) (hp : r.phase = RPhase.idle) :
      Step s (setReader s i { r with phase := RPhase.waiting s.pubs.length })
  | readSlot (s : Sys) (i : Nat) (r : Reader) (n : Nat)
      (hr : s.readers[i]? = some r) (hp : r.phase = RPhase.woken n) :
      Step s (setReader s i { r with phase := RPhase.gotFrame n s.frame })
  | skipNone (s : Sys) (i : Nat) (r : Reader) (n : Nat)
      (hr : s.readers[i]? = some r) (hp : r.phase = RPhase.gotFrame n none) :
      Step s (setReader s i { r with phase := RPhase.idle })
  | startEmit (s : Sys) (i : Nat) (r : Reader) (n : Nat) (f : Frame)
      (hr : s.readers[i]? = some r) (hp : r.phase = RPhase.gotFrame n (some f)) :
      Step s (setReader s i { r with phase := RPhase.emitting n f })
  | finishEmit (s : Sys) (i : Nat) (r : Reader) (n : Nat) (f : Frame)
      (hr : s.readers[i]? = some r) (hp : r.phase = RPhase.emitting n f) :
      Step s (setReader s i { phase := RPhase.idle, delivered := f :: r.delivered })
  | disconnect (s : Sys) (i : Nat) (r : Reader) (n : Nat) (f : Frame)
      (hr : s.readers[i]? = some r) (hp : r.phase = RPhase.emitting n f) :
      Step s (setReader s i { r with phase := RPhase.terminated })

/-- States reachable from `initSys n`. -/
inductive Reach (n : Nat) : Sys → Prop where
  | refl : Reach n (initSys n)
  | tail {s t : Sys} : Reach n s → Step s t → Reach n t

/-! ### Invariants of the reachable states -/

/-- Well-formedness of a session's control location against the publish
history: ghost indices are bounded by the number of publishes, a woken
session was woken by an actual publish (index ≥ 1), and a session that
has read the slot holds `some` frame that is publish number `m` for
some `m` at or after the publish that woke it. -/
def PhaseOK (pubs : List Frame) : RPhase → Prop
  | RPhase.idle => True
  | RPhase.terminated => True
  | RPhase.waiting k => k ≤ pubs.length
  | RPhase.woken k => 1 ≤ k ∧ k ≤ pubs.length
  | RPhase.gotFrame k f =>
      1 ≤ k ∧ ∃ fr m, f = some fr ∧ k ≤ m ∧ m ≤ pubs.length ∧
        pubs[pubs.length - m]? = some fr
  | RPhase.emitting k f =>
      1 ≤ k ∧ ∃ m, k ≤ m ∧ m ≤ pubs.length ∧ pubs[pubs.length - m]? = some f

/-- Global invariant: the slot holds exactly the most recent publish
(`None` before the first one), and every session's location is
well-formed. -/
def Inv (s : Sys) : Prop :=
  s.frame = s.pubs.head? ∧ ∀ r ∈ s.readers, PhaseOK s.pubs r.phase

lemma mem_of_getElemOpt {α : Type} {l : List α} {i : Nat} {a : α}
    (h : l[i]? = some a) : a ∈ l := by
  obtain ⟨hl, he⟩ := List.getElem?_eq_some.mp h
  exact he ▸ List.getElem_mem hl

/-- A publish (1-based index ≤ the old count) is still found at the
same index after a new frame is pushed onto the history. -/
lemma getPub_cons (buf : Frame) (pubs : List Frame) {m : Nat}
    (h2 : m ≤ pubs.length) :
    (buf :: pubs)[(buf :: pubs).length - m]? = pubs[pubs.length - m]? := by
  have hlen : (buf :: pubs).length = pubs.length + 1 := rfl
  have : (buf :: pubs).length - m = (pubs.length - m) + 1 := by
    rw [hlen]; omega
  rw [this, List.getElem?_cons_succ]

/-- `PhaseOK` is stable under a new publish for a phase the wakeup does
not rewrite. -/
lemma phaseOK_cons (buf : Frame) (pubs : List Frame) (p : RPhase)
    (h : PhaseOK pubs p) : PhaseOK (buf :: pubs) p := by
  cases p with
  | idle => trivial
  | terminated => trivial
  | waiting k => exact Nat.le_trans h (by simp)
  | woken k => exact ⟨h.1, Nat.le_trans h.2 (by simp)⟩
  | gotFrame k f =>
    obtain ⟨hk, fr, m, hf, hkm, hmlen, hget⟩ := h
    exact ⟨hk, fr, m, hf, hkm, by simp; omega,
      by rw [getPub_cons buf pubs hmlen]; exact hget⟩
  | emitting k f =>
    obtain ⟨hk, m, hkm, hmlen, hget⟩ := h
    exact ⟨hk, m, hkm, by simp; omega,
      by rw [getPub_cons buf pubs hmlen]; exact hget⟩

lemma inv_ingest (s : Sys) (buf : List Nat) (h : Inv s) :
    Inv (ingestStep s buf) := by
  unfold ingestStep
  by_cases hb : startsWithJpegSOI buf
  · rw [if_pos hb]
    refine ⟨rfl, ?_⟩
    intro r hr
    rw [List.mem_map] at hr
    obtain ⟨r0, hr0, rfl⟩ := hr
    have h0 := h.2 r0 hr0
    unfold wakeReader
    cases hp : r0.phase with
    | waiting k =>
      show PhaseOK (buf :: s.pubs) (RPhase.woken (s.pubs.length + 1))
      exact ⟨Nat.succ_le_succ (Nat.zero_le _), by simp⟩
    | idle => simpa [hp] using phaseOK_cons buf s.pubs _ (hp ▸ h0)
    | terminated => simpa [hp] using phaseOK_cons buf s.pubs _ (hp ▸ h0)
    | woken k => simpa [hp] using phaseOK_cons buf s.pubs _ (hp ▸ h0)
    | gotFrame k f => simpa [hp] using phaseOK_cons buf s.pubs _ (hp ▸ h0)
    | emitting k f => simpa [hp] using phaseOK_cons buf s.pubs _ (hp ▸ h0)
  · rw [if_neg hb]; exact h

lemma inv_setReader (s : Sys) (i : Nat) (r : Reader)
    (h : Inv s) (hok : PhaseOK s.pubs r.phase) : Inv (setReader s i r) := by
  refine ⟨h.1, ?_⟩
  intro r' hr'
  rcases List.mem_or_eq_of_mem_set hr' with hmem | heq
  · exact h.2 r' hmem
  · exact heq ▸ hok

/-- The invariant is preserved by every step. -/
lemma inv_step {s t : Sys} (hst : Step s t) (h : Inv s) : Inv t := by
  cases hst with
  | ingest buf => exact inv_ingest s buf h
  | beginWait i r hr hp =>
    exact inv_setReader s i _ h (Nat.le_refl _)
  | readSlot i r n hr hp =>
    have h0 := h.2 r (mem_of_getElemOpt hr)
    rw [hp] at h0
    obtain ⟨hn1, hnlen⟩ := h0
    have hpubs : s.pubs ≠ [] := by
      intro he; rw [he] at hnlen; simp at hnlen; omega
    obtain ⟨fr, hfr⟩ : ∃ fr, s.pubs.head? = some fr := by
      cases hc : s.pubs with
      | nil => exact absurd hc hpubs
      | cons a l => exact ⟨a, rfl⟩
    refine inv_setReader s i _ h ?_
    show PhaseOK s.pubs (RPhase.gotFrame n s.frame)
    refine ⟨hn1, fr, s.pubs.length, h.1.trans hfr, hnlen, Nat.le_refl _, ?_⟩
    rw [Nat.sub_self, ← List.head?_eq_getElem? s.pubs]
    exact hfr
  | skipNone i r n hr hp => exact inv_setReader s i _ h trivial
  | startEmit i r n f hr hp =>
    have h0 := h.2 r (mem_of_getElemOpt hr)
    rw [hp] at h0
    obtain ⟨hn1, fr, m, hf, hkm, hmlen, hget⟩ := h0
    refine inv_setReader s i _ h ?_
    show PhaseOK s.pubs (RPhase.emitting n f)
    obtain rfl : fr = f := by injection hf with hh; exact hh.symm
    exact ⟨hn1, m, hkm, hmlen, hget⟩
  | finishEmit i r n f hr hp => exact inv_setReader s i _ h trivial
  | disconnect i r n f hr hp => exact inv_setReader s i _ h trivial

/-- Every reachable state satisfies the invariant. -/
lemma reach_inv {n : Nat} {s : Sys} (h : Reach n s) : Inv s := by
  induction h with
  | refl =>
    refine ⟨rfl, ?_⟩
    intro r hr
    have := List.eq_of_mem_replicate hr
    rw [this]
    trivial
  | tail _ hst ih => exact inv_step hst ih

/-! ### Claims about the ingest operation -/

/-- The source's marker test agrees with the spec's wording "begins
with the two bytes 0xFF 0xD8". -/
lemma startsWith_iff_spec (buf : List Nat) :
    startsWithJpegSOI buf = true ↔ specBeginsWithSOI buf := by
  unfold startsWithJpegSOI specBeginsWithSOI
  rcases buf with _ | ⟨a, _ | ⟨b, rest⟩⟩
  · simp
  · simp
  · simp only [Bool.and_eq_true, beq_iff_eq]
    constructor
    · rintro ⟨rfl, rfl⟩; exact ⟨rest, rfl⟩
    · rintro ⟨rest', he⟩
      injection he with h1 h2
      injection h2 with h2 h3
      exact ⟨h1, h2⟩

/-- C3: `StreamingOutput.write` publishes iff the chunk begins with
`0xFF 0xD8`; on a qualifying chunk it performs exactly one publish that
stores the chunk's bytes unchanged; on any other chunk it performs zero
publishes, leaves the state unchanged, and raises no error. -/
theorem claim_C3 (s : StreamingOutput) (buf : List Nat) :
    ((s.write buf).pubsMade ≠ [] ↔ specBeginsWithSOI buf) ∧
    (specBeginsWithSOI buf →
      (s.write buf).pubsMade = [buf] ∧ (s.write buf).state.frame = some buf) ∧
    (¬ specBeginsWithSOI buf →
      (s.write buf).pubsMade = [] ∧ (s.write buf).state = s) := by
  unfold StreamingOutput.write
  by_cases hb : startsWithJpegSOI buf = true
  · have hs := (startsWith_iff_spec buf).mp hb
    simp [hb, hs]
  · have hs : ¬ specBeginsWithSOI buf := fun h => hb ((startsWith_iff_spec buf).mpr h)
    rw [if_neg hb]
    simp [hs]

theorem claim_C3_witness :
    ((StreamingOutput.mkInit.write [255, 216, 7]).pubsMade = [[255, 216, 7]] ∧
      (StreamingOutput.mkInit.write [255, 216, 7]).state.frame = some [255, 216, 7]) ∧
    ((StreamingOutput.mkInit.write [1, 2]).pubsMade = [] ∧
      (StreamingOutput.mkInit.write [1, 2]).state = StreamingOutput.mkInit) :=
  ⟨(claim_C3 StreamingOutput.mkInit [255, 216, 7]).2.1 ⟨[7], rfl⟩,
   (claim_C3 StreamingOutput.mkInit [1, 2]).2.2 (by rintro ⟨rest, he⟩; simp at he)⟩

/-- C7: every ingest call consumes the whole chunk: `write` returns
`len(buf)` on every input, including dropped chunks. -/
theorem claim_C7 (s : StreamingOutput) (buf : List Nat) :
    (s.write buf).returned = buf.length := by
  unfold StreamingOutput.write
  split <;> rfl

/-! ### Claims about the HTTP layer -/

lemma asciiBytes_append (a b : String) :
    asciiBytes (a ++ b) = asciiBytes a ++ asciiBytes b := by
  simp [asciiBytes, String.data_append]

/-- C4: for a published frame of length L, the per-part byte stream is
exactly `--FRAME\r\nContent-Type: image/jpeg\r\nContent-Length: L\r\n\r\n`
followed by the L payload bytes verbatim and a trailing `\r\n`. -/
theorem claim_C4 (f : Frame) : multipartPartBytes f = specPartBytes f := by
  have hBIG : asciiBytes "--FRAME\r\nContent-Type: image/jpeg\r\nContent-Length: "
      = asciiBytes "--FRAME\r\n" ++ (asciiBytes "Content-Type: image/jpeg\r\n"
        ++ asciiBytes "Content-Length: ") := by decide
  have hdd : asciiBytes "\r\n\r\n" = asciiBytes "\r\n" ++ asciiBytes "\r\n" := by decide
  unfold multipartPartBytes specPartBytes sendHeaderBytes endHeadersBytes
  simp [asciiBytes_append, List.append_assoc, hBIG, hdd]

/-- C8: `GET /stream.mjpg` with no frame source gets 503 and leaves the
global `output` untouched (the handler returns normally); with a frame
source it gets 200 with headers `Age: 0`, `Cache-Control: no-cache,
private`, `Pragma: no-cache`, and
`Content-Type: multipart/x-mixed-replace; boundary=FRAME`. -/
theorem claim_C8 :
    (doGET "/stream.mjpg" none).1.status = 503 ∧
    (doGET "/stream.mjpg" none).2 = none ∧
    ∀ so : StreamingOutput,
      (doGET "/stream.mjpg" (some so)).1.status = 200 ∧
      (doGET "/stream.mjpg" (some so)).1.headers =
        [("Age", "0"), ("Cache-Control", "no-cache, private"),
         ("Pragma", "no-cache"),
         ("Content-Type", "multipart/x-mixed-replace; boundary=FRAME")] ∧
      (doGET "/stream.mjpg" (some so)).2 = some so := by
  refine ⟨?_, ?_, fun so => ⟨?_, ?_, ?_⟩⟩ <;> simp [doGET]

/-- C9: any path other than `/` and `/stream.mjpg` gets 404 with the
global `output` unchanged; the root path gets 200 with
`Content-Type: text/html`. -/
theorem claim_C9 (p : String) (out : Option StreamingOutput) :
    (p ≠ "/" → p ≠ "/stream.mjpg" →
      (doGET p out).1.status = 404 ∧ (doGET p out).2 = out) ∧
    ((doGET "/" out).1.status = 200 ∧
      ("Content-Type", "text/html") ∈ (doGET "/" out).1.headers ∧
      (doGET "/" out).2 = out) := by
  constructor
  · intro h1 h2
    unfold doGET
    rw [if_neg h1, if_neg h2]
    exact ⟨rfl, rfl⟩
  · refine ⟨?_, ?_, ?_⟩ <;> simp [doGET]

theorem claim_C9_witness :
    ((doGET "/favicon.ico" none).1.status = 404 ∧
      (doGET "/favicon.ico" none).2 = none) ∧
    ((doGET "/" none).1.status = 200 ∧
      ("Content-Type", "text/html") ∈ (doGET "/" none).1.headers ∧
      (doGET "/" none).2 = none) :=
  ⟨(claim_C9 "/favicon.ico" none).1 (by decide) (by decide),
   (claim_C9 "/favicon.ico" none).2⟩

/-! ### Claims about the concurrency core -/

/-- A session inside `condition.wait` is untouched by any step that
performs no publish: only `notify_all` (line 48) can move it. -/
lemma waiting_stable {s t : Sys} (hst : Step s t) (hpubs : t.pubs = s.pubs)
    {i : Nat} {r : Reader} {w : Nat} (hr : s.readers[i]? = some r)
    (hw : r.phase = RPhase.waiting w) : t.readers[i]? = some r := by
  cases hst with
  | ingest buf =>
    by_cases hb : startsWithJpegSOI buf = true
    · exfalso
      unfold ingestStep at hpubs
      rw [if_pos hb] at hpubs
      have hlen := congrArg List.length hpubs
      simp at hlen
    · unfold ingestStep
      rw [if_neg hb]
      exact hr
  | beginWait j r' hr' hp' =>
    rcases eq_or_ne j i with rfl | hne
    · have heq : r' = r := Option.some.inj (hr'.symm.trans hr)
      rw [heq, hw] at hp'
      simp at hp'
    · simpa [setReader, List.getElem?_set_ne hne] using hr
  | readSlot j r' n hr' hp' =>
    rcases eq_or_ne j i with rfl | hne
    · have heq : r' = r := Option.some.inj (hr'.symm.trans hr)
      rw [heq, hw] at hp'
      simp at hp'
    · simpa [setReader, List.getElem?_set_ne hne] using hr
  | skipNone j r' n hr' hp' =>
    rcases eq_or_ne j i with rfl | hne
    · have heq : r' = r := Option.some.inj (hr'.symm.trans hr)
      rw [heq, hw] at hp'
      simp at hp'
    · simpa [setReader, List.getElem?_set_ne hne] using hr
  | startEmit j r' n f hr' hp' =>
    rcases eq_or_ne j i with rfl | hne
    · have heq : r' = r := Option.some.inj (hr'.symm.trans hr)
      rw [heq, hw] at hp'
      simp at hp'
    · simpa [setReader, List.getElem?_set_ne hne] using hr
  | finishEmit j r' n f hr' hp' =>
    rcases eq_or_ne j i with rfl | hne
    · have heq : r' = r := Option.some.inj (hr'.symm.trans hr)
      rw [heq, hw] at hp'
      simp at hp'
    · simpa [setReader, List.getElem?_set_ne hne] using hr
  | disconnect j r' n f hr' hp' =>
    rcases eq_or_ne j i with rfl | hne
    · have heq : r' = r := Option.some.inj (hr'.symm.trans hr)
      rw [heq, hw] at hp'
      simp at hp'
    · simpa [setReader, List.getElem?_set_ne hne] using hr

/-- C1: a session still waiting when publish number `len+1` happens is
woken by exactly that publish; a session woken by publish `n` finds the
slot holding the frame of publish number `pubs.length ≥ n` (never an
earlier one); and any frame a session has read or is writing to its
client is publish number `m` for some `m` at or after the publish that
woke it. -/
theorem claim_C1 {N : Nat} {s : Sys} (h : Reach N s) :
    (∀ (buf : List Nat) (i : Nat) (r : Reader) (w : Nat),
      startsWithJpegSOI buf = true → s.readers[i]? = some r →
      r.phase = RPhase.waiting w →
      (ingestStep s buf).readers[i]? =
        some { r with phase := RPhase.woken (s.pubs.length + 1) }) ∧
    (∀ (i n : Nat) (r : Reader), s.readers[i]? = some r →
      r.phase = RPhase.woken n →
      1 ≤ n ∧ n ≤ s.pubs.length ∧
      ∃ f, s.frame = some f ∧ pubAt s s.pubs.length = some f) ∧
    (∀ (i n : Nat) (r : Reader) (f : Frame), s.readers[i]? = some r →
      (r.phase = RPhase.gotFrame n (some f) ∨ r.phase = RPhase.emitting n f) →
      ∃ m, n ≤ m ∧ m ≤ s.pubs.length ∧ pubAt s m = some f) := by
  have hinv := reach_inv h
  refine ⟨?_, ?_, ?_⟩
  · intro buf i r w hb hr hw
    unfold ingestStep
    rw [if_pos hb]
    show (s.readers.map (wakeReader (s.pubs.length + 1)))[i]? = _
    rw [List.getElem?_map, hr]
    show some (wakeReader (s.pubs.length + 1) r) = _
    unfold wakeReader
    rw [hw]
  · intro i n r hr hn
    have hok := hinv.2 r (mem_of_getElemOpt hr)
    rw [hn] at hok
    obtain ⟨h1, h2⟩ := hok
    obtain ⟨fr, hfr⟩ : ∃ fr, s.pubs.head? = some fr := by
      cases hc : s.pubs with
      | nil => rw [hc] at h2; simp at h2; omega
      | cons a l => exact ⟨a, rfl⟩
    refine ⟨h1, h2, fr, hinv.1.trans hfr, ?_⟩
    unfold pubAt
    rw [Nat.sub_self, ← List.head?_eq_getElem? s.pubs]
    exact hfr
  · intro i n r f hr hor
    have hok := hinv.2 r (mem_of_getElemOpt hr)
    rcases hor with hp | hp
    · rw [hp] at hok
      obtain ⟨h1, fr, m, hf, hnm, hmlen, hget⟩ := hok
      obtain rfl : fr = f := by injection hf with hh; exact hh.symm
      exact ⟨m, hnm, hmlen, hget⟩
    · rw [hp] at hok
      obtain ⟨h1, m, hnm, hmlen, hget⟩ := hok
      exact ⟨m, hnm, hmlen, hget⟩

/-- A chunk with the SOI marker, as the encoder would deliver. -/
def exBuf : Frame := [255, 216, 10, 20]

/-- A second marker chunk. -/
def exBuf2 : Frame := [255, 216, 99]

/-- Two sessions; session 0 enters the wait before any publish. -/
def exS1 : Sys := setReader (initSys 2) 0 { phase := RPhase.waiting 0, delivered := [] }

/-- Session 1 also enters the wait. -/
def exS2 : Sys := setReader exS1 1 { phase := RPhase.waiting 0, delivered := [] }

/-- The encoder publishes `exBuf`: both sessions are woken. -/
def exS3 : Sys := ingestStep exS2 exBuf

/-- Session 0 re-acquires the lock and reads the slot. -/
def exS4 : Sys := setReader exS3 0 { phase := RPhase.gotFrame 1 exS3.frame, delivered := [] }

/-- Session 0 starts writing the multipart part. -/
def exS5 : Sys := setReader exS4 0 { phase := RPhase.emitting 1 exBuf, delivered := [] }

lemma reach_exS1 : Reach 2 exS1 :=
  Reach.tail Reach.refl (Step.beginWait (initSys 2) 0 ⟨RPhase.idle, []⟩ (by decide) rfl)

lemma reach_exS2 : Reach 2 exS2 :=
  Reach.tail reach_exS1 (Step.beginWait exS1 1 ⟨RPhase.idle, []⟩ (by decide) rfl)

lemma reach_exS3 : Reach 2 exS3 :=
  Reach.tail reach_exS2 (Step.ingest exS2 exBuf)

lemma reach_exS4 : Reach 2 exS4 :=
  Reach.tail reach_exS3 (Step.readSlot exS3 0 ⟨RPhase.woken 1, []⟩ 1 (by decide) rfl)

lemma reach_exS5 : Reach 2 exS5 :=
  Reach.tail reach_exS4
    (Step.startEmit exS4 0 ⟨RPhase.gotFrame 1 exS3.frame, []⟩ 1 exBuf (by decide) (by decide))

theorem claim_C1_witness :
    ((ingestStep exS2 exBuf).readers[0]? =
      some { phase := RPhase.woken (exS2.pubs.length + 1), delivered := [] }) ∧
    (1 ≤ 1 ∧ 1 ≤ exS3.pubs.length ∧
      ∃ f, exS3.frame = some f ∧ pubAt exS3 exS3.pubs.length = some f) :=
  ⟨(claim_C1 reach_exS2).1 exBuf 0 ⟨RPhase.waiting 0, []⟩ 0 (by decide) (by decide) rfl,
   (claim_C1 reach_exS3).2.1 0 1 ⟨RPhase.woken 1, []⟩ (by decide) rfl⟩

/-- C2: a session that began waiting with zero publishes stays in the
wait through every step that performs no publish (no timeout, no
spurious return); a woken session finds at least one publish and a
non-`None` slot (so no `None` frame is ever handed to the client); and
if exactly one publish has occurred when it reads the slot, the value
read is exactly the first published frame. -/
theorem claim_C2 {N : Nat} {s : Sys} (h : Reach N s) :
    (∀ (t : Sys) (i w : Nat) (r : Reader), Step s t → t.pubs = s.pubs →
      s.readers[i]? = some r → r.phase = RPhase.waiting w →
      t.readers[i]? = some r) ∧
    (∀ (i n : Nat) (r : Reader), s.readers[i]? = some r →
      r.phase = RPhase.woken n → 1 ≤ s.pubs.length ∧ ∃ f, s.frame = some f) ∧
    (∀ (i n : Nat) (r : Reader) (f : Option Frame) (a : Frame),
      s.readers[i]? = some r → r.phase = RPhase.gotFrame n f →
      s.pubs = [a] → f = some a) := by
  have hinv := reach_inv h
  refine ⟨?_, ?_, ?_⟩
  · intro t i w r hst hpubs hr hw
    exact waiting_stable hst hpubs hr hw
  · intro i n r hr hn
    have hok := hinv.2 r (mem_of_getElemOpt hr)
    rw [hn] at hok
    obtain ⟨h1, h2⟩ := hok
    have hlen : 1 ≤ s.pubs.length := le_trans h1 h2
    obtain ⟨fr, hfr⟩ : ∃ fr, s.pubs.head? = some fr := by
      cases hc : s.pubs with
      | nil => rw [hc] at hlen; simp at hlen
      | cons a l => exact ⟨a, rfl⟩
    exact ⟨hlen, fr, hinv.1.trans hfr⟩
  · intro i n r f a hr hp hpubs
    have hok := hinv.2 r (mem_of_getElemOpt hr)
    rw [hp] at hok
    obtain ⟨h1, fr, m, hf, hnm, hmlen, hget⟩ := hok
    rw [hpubs] at hmlen hget
    simp at hmlen
    have hm : m = 1 := by omega
    rw [hm] at hget
    simp at hget
    rw [hf, hget]

theorem claim_C2_witness :
    (exS2.readers[0]? = some { phase := RPhase.waiting 0, delivered := [] }) ∧
    (1 ≤ exS3.pubs.length ∧ ∃ f, exS3.frame = some f) ∧
    (exS3.frame = some exBuf) :=
  ⟨(claim_C2 reach_exS1).1 exS2 0 0 ⟨RPhase.waiting 0, []⟩
      (Step.beginWait exS1 1 ⟨RPhase.idle, []⟩ (by decide) rfl) rfl (by decide) rfl,
   (claim_C2 reach_exS3).2.1 0 1 ⟨RPhase.woken 1, []⟩ (by decide) rfl,
   (claim_C2 reach_exS4).2.2 0 1 ⟨RPhase.gotFrame 1 exS3.frame, []⟩ exS3.frame exBuf
      (by decide) rfl (by decide)⟩

/-- The atomic actions of the source, for the lock-discipline claims:
lock operations, the slot assignment, `notify_all`, the condition wait,
the slot read, header buffering, and socket writes. -/
inductive Act where
  | lockAcquire : Act
  | assignFrame : Act
  | notifyAll : Act
  | lockRelease : Act
  | condWait : Act
  | readSlotAct : Act
  | bufferHeader : Act
  | netWrite : Act
deriving DecidableEq, Repr

/-- The action sequence of one `StreamingOutput.write(buf)` call
(lines 45-49): on a marker chunk, take the condition lock, assign the
slot, `notify_all`, release; otherwise touch no shared state. -/
def writeActs (buf : List Nat) : List Act :=
  if startsWithJpegSOI buf then
    [Act.lockAcquire, Act.assignFrame, Act.notifyAll, Act.lockRelease]
  else []

/-- The action sequence of one streaming-loop iteration (lines 96-107):
the `with output.condition` block holds only the wait and the slot
read; all socket writes (boundary, header flush, payload, trailing
CRLF) happen after the lock is released. -/
def streamLoopActs : List Act :=
  [Act.lockAcquire, Act.condWait, Act.readSlotAct, Act.lockRelease,
   Act.netWrite, Act.bufferHeader, Act.bufferHeader, Act.netWrite,
   Act.netWrite, Act.netWrite]

/-- The actions performed while the lock is held: those strictly
between the first `lockAcquire` and the next `lockRelease`. -/
def lockedWindow (acts : List Act) : List Act :=
  ((acts.dropWhile (fun a => !(a == Act.lockAcquire))).drop 1).takeWhile
    (fun a => !(a == Act.lockRelease))

/-- C5: a publish never blocks on reader progress: the ingest step is
enabled in every state, it is a single atomic transition whose effect
on the slot and history is independent of the readers, it wakes all
waiters in that one broadcast step (reader count unchanged), and its
lock-hold window is exactly the slot assignment plus the notification
with no network I/O; the sessions also never hold the lock across
network I/O. -/
theorem claim_C5 (s : Sys) (buf : List Nat) :
    Step s (ingestStep s buf) ∧
    (ingestStep s buf).readers.length = s.readers.length ∧
    (∀ rs : List Reader,
      (ingestStep { frame := s.frame, pubs := s.pubs, readers := rs } buf).frame
        = (ingestStep s buf).frame ∧
      (ingestStep { frame := s.frame, pubs := s.pubs, readers := rs } buf).pubs
        = (ingestStep s buf).pubs) ∧
    (lockedWindow (writeActs buf) = [Act.assignFrame, Act.notifyAll]
      ∨ writeActs buf = []) ∧
    Act.netWrite ∉ writeActs buf ∧
    Act.netWrite ∉ lockedWindow streamLoopActs := by
  refine ⟨Step.ingest s buf, ?_, ?_, ?_, ?_, by decide⟩
  · unfold ingestStep
    by_cases hb : startsWithJpegSOI buf = true
    · rw [if_pos hb]; simp
    · rw [if_neg hb]
  · intro rs
    unfold ingestStep
    by_cases hb : startsWithJpegSOI buf = true
    · rw [if_pos hb, if_pos hb]; exact ⟨rfl, rfl⟩
    · rw [if_neg hb, if_neg hb]; exact ⟨rfl, rfl⟩
  · unfold writeActs
    by_cases hb : startsWithJpegSOI buf = true
    · rw [if_pos hb]; left; decide
    · rw [if_neg hb]; right; rfl
  · unfold writeActs
    by_cases hb : startsWithJpegSOI buf = true
    · rw [if_pos hb]; decide
    · rw [if_neg hb]; simp

/-- The state transition of a client disconnect (a failed socket write)
in session `i`: only that session's phase becomes terminated. -/
def disconnectStep (s : Sys) (i : Nat) (r : Reader) : Sys :=
  setReader s i { r with phase := RPhase.terminated }

/-- C6: a write error in one session terminates only that session: the
frame slot and publish history are untouched, every other session's
state is untouched, and a subsequent publish still wakes any other
waiting session (which therefore keeps receiving frames). -/
theorem claim_C6 (s : Sys) (i : Nat) (r : Reader) (n : Nat) (f : Frame)
    (hr : s.readers[i]? = some r) (hp : r.phase = RPhase.emitting n f) :
    Step s (disconnectStep s i r) ∧
    (disconnectStep s i r).frame = s.frame ∧
    (disconnectStep s i r).pubs = s.pubs ∧
    (∀ j, j ≠ i → (disconnectStep s i r).readers[j]? = s.readers[j]?) ∧
    (disconnectStep s i r).readers[i]? = some { r with phase := RPhase.terminated } ∧
    (∀ (j w : Nat) (r' : Reader) (buf : List Nat),
      (disconnectStep s i r).readers[j]? = some r' →
      r'.phase = RPhase.waiting w → startsWithJpegSOI buf = true →
      (ingestStep (disconnectStep s i r) buf).readers[j]? =
        some { r' with phase := RPhase.woken (s.pubs.length + 1) }) := by
  refine ⟨Step.disconnect s i r n f hr hp, rfl, rfl, ?_, ?_, ?_⟩
  · intro j hj
    simp [disconnectStep, setReader, List.getElem?_set_ne hj.symm]
  · have hi : i < s.readers.length := (List.getElem?_eq_some.mp hr).1
    simp [disconnectStep, setReader, List.getElem?_set_self hi]
  · intro j w r' buf hr' hw hb
    unfold ingestStep
    rw [if_pos hb]
    show ((disconnectStep s i r).readers.map (wakeReader ((disconnectStep s i r).pubs.length + 1)))[j]? = _
    rw [List.getElem?_map, hr']
    show some (wakeReader (s.pubs.length + 1) r') = _
    unfold wakeReader
    rw [hw]

/-- One session mid-part, a second session waiting, one publish done. -/
def exC6 : Sys :=
  { frame := some exBuf, pubs := [exBuf],
    readers := [{ phase := RPhase.emitting 1 exBuf, delivered := [] },
                { phase := RPhase.waiting 1, delivered := [] }] }

theorem claim_C6_witness :
    (disconnectStep exC6 0 { phase := RPhase.emitting 1 exBuf, delivered := [] }).frame
      = exC6.frame ∧
    (disconnectStep exC6 0 { phase := RPhase.emitting 1 exBuf, delivered := [] }).readers[1]?
      = exC6.readers[1]? ∧
    (ingestStep (disconnectStep exC6 0 { phase := RPhase.emitting 1 exBuf, delivered := [] })
        exBuf2).readers[1]?
      = some { phase := RPhase.woken (exC6.pubs.length + 1), delivered := [] } := by
  have h := claim_C6 exC6 0 { phase := RPhase.emitting 1 exBuf, delivered := [] } 1 exBuf
    (by decide) rfl
  exact ⟨h.2.1, h.2.2.2.1 1 (by decide),
    h.2.2.2.2.2 1 1 { phase := RPhase.waiting 1, delivered := [] } exBuf2
      (by decide) rfl (by decide)⟩

/-- C10: the slot is `None` exactly until the first publish and never
returns to `None`: in every reachable state the slot equals the most
recent publish, every step preserves non-`None`-ness of the slot,
every `write` call either leaves the slot unchanged or stores `some`
bytes, and no session ever reads a `None` frame after its wait (the
`if frame is None: continue` branch is unreachable). -/
theorem claim_C10 {N : Nat} {s : Sys} (h : Reach N s) :
    s.frame = s.pubs.head? ∧
    (s.frame = none ↔ s.pubs = []) ∧
    (∀ t, Step s t → s.frame ≠ none → t.frame ≠ none) ∧
    (∀ (so : StreamingOutput) (buf : List Nat),
      (so.write buf).state.frame = so.frame ∨
        ∃ b, (so.write buf).state.frame = some b) ∧
    (∀ (i n : Nat) (r : Reader), s.readers[i]? = some r →
      r.phase ≠ RPhase.gotFrame n none) := by
  have hinv := reach_inv h
  refine ⟨hinv.1, ?_, ?_, ?_, ?_⟩
  · rw [hinv.1]
    cases s.pubs <;> simp
  · intro t hst hne
    cases hst with
    | ingest buf =>
      unfold ingestStep
      by_cases hb : startsWithJpegSOI buf = true
      · rw [if_pos hb]; simp
      · rw [if_neg hb]; exact hne
    | beginWait i r hr hp => exact hne
    | readSlot i r n hr hp => exact hne
    | skipNone i r n hr hp => exact hne
    | startEmit i r n f hr hp => exact hne
    | finishEmit i r n f hr hp => exact hne
    | disconnect i r n f hr hp => exact hne
  · intro so buf
    unfold StreamingOutput.write
    by_cases hb : startsWithJpegSOI buf = true
    · rw [if_pos hb]; right; exact ⟨buf, rfl⟩
    · rw [if_neg hb]; left; rfl
  · intro i n r hr hcon
    have hok := hinv.2 r (mem_of_getElemOpt hr)
    rw [hcon] at hok
    obtain ⟨h1, fr, m, hf, hrest⟩ := hok
    exact Option.noConfusion hf

theorem claim_C10_witness :
    exS3.frame = exS3.pubs.head? ∧
    (exS3.frame = none ↔ exS3.pubs = []) ∧
    (∀ t, Step exS3 t → exS3.frame ≠ none → t.frame ≠ none) ∧
    (∀ (so : StreamingOutput) (buf : List Nat),
      (so.write buf).state.frame = so.frame ∨
        ∃ b, (so.write buf).state.frame = some b) ∧
    (∀ (i n : Nat) (r : Reader), exS3.readers[i]? = some r →
      r.phase ≠ RPhase.gotFrame n none) :=
  claim_C10 reach_exS3

end IPcam
